import Mathlib

/-!
Shallow embedding of the OBserve_pyautogui_cv2 repository core: the
mutex guarded latest frame buffer (class WebcamStream in
src/assistant.py), the screen capture loop of src/main.py, and the
frame extraction of src/screen_recorder.py.  Machine integers are
modelled as Nat or Int, Python bytes as lists of Nat below 256, the
OpenCV FPS property as a rational number, and raising Python code as
Except valued functions.
-/

/-- A pixel word of a frame. -/
abbrev Word := Nat

/-- A frame is a flat pixel buffer (a numpy ndarray in the source). -/
abbrev Frame := List Word

/-- Base64 alphabet of base64.b64encode: sextet value to ASCII code. -/
def tbl (n : Nat) : Nat :=
  if n < 26 then 65 + n
  else if n < 52 then 97 + (n - 26)
  else if n < 62 then 48 + (n - 52)
  else if n = 62 then 43
  else 47

/-- Inverse base64 alphabet: ASCII code back to sextet value. -/
def tblInv (c : Nat) : Nat :=
  if 65 ≤ c ∧ c ≤ 90 then c - 65
  else if 97 ≤ c ∧ c ≤ 122 then 26 + (c - 97)
  else if 48 ≤ c ∧ c ≤ 57 then 52 + (c - 48)
  else if c = 43 then 62
  else 63

/-- base64.b64encode on a byte list: each group of three bytes becomes
four alphabet codes, a short final group is padded with code 61, the
ASCII code of the padding character. -/
def b64encode : List Nat → List Nat
  | [] => []
  | [b0] => [tbl (b0 / 4), tbl (b0 % 4 * 16), 61, 61]
  | [b0, b1] => [tbl (b0 / 4), tbl (b0 % 4 * 16 + b1 / 16), tbl (b1 % 16 * 4), 61]
  | b0 :: b1 :: b2 :: rest =>
      tbl (b0 / 4) :: tbl (b0 % 4 * 16 + b1 / 16) ::
        tbl (b1 % 16 * 4 + b2 / 64) :: tbl (b2 % 64) :: b64encode rest

/-- base64.b64decode restricted to the image of b64encode: each group of
four codes becomes three bytes, padding codes cut the final group short. -/
def b64decode : List Nat → List Nat
  | c0 :: c1 :: c2 :: c3 :: rest =>
      if c2 = 61 then [tblInv c0 * 4 + tblInv c1 / 16]
      else if c3 = 61 then
        [tblInv c0 * 4 + tblInv c1 / 16, tblInv c1 % 16 * 16 + tblInv c2 / 4]
      else
        (tblInv c0 * 4 + tblInv c1 / 16) ::
          (tblInv c1 % 16 * 16 + tblInv c2 / 4) ::
          (tblInv c2 % 4 * 64 + tblInv c3) :: b64decode rest
  | _ => []

/-- Python exceptions raised by the modelled code paths. -/
inductive PyErr where
  | attributeError
deriving DecidableEq

/-- State of one WebcamStream object (src/assistant.py).  The thread
field is none before the first start call, when the attribute does not
exist yet, and some b afterwards, where b records whether the thread is
alive.  The spawned field is ghost instrumentation counting how many
capture loop threads were ever launched. -/
structure WebcamStream where
  frame : Option Frame
  running : Bool
  thread : Option Bool
  spawned : Nat
deriving DecidableEq

namespace WebcamStream

/-- WebcamStream.__init__ body: VideoCapture(index=0) returns an object
whether or not the device opens, the first stream.read() returns a pair
whose success flag is discarded, so on an unopenable source the stored
frame is None, modelled as none. -/
def initState (firstCapture : Option Frame) : WebcamStream :=
  { frame := firstCapture, running := false, thread := none, spawned := 0 }

/-- The constructor as the caller sees it: the body contains no raising
operation, so construction always completes with the initState value. -/
def init (firstCapture : Option Frame) : Except PyErr WebcamStream :=
  Except.ok (initState firstCapture)

/-- WebcamStream.start: return self at once when already running,
otherwise set running, create and launch the update thread, return self. -/
def start (s : WebcamStream) : WebcamStream :=
  if s.running then s
  else { s with running := true, thread := some true, spawned := s.spawned + 1 }

/-- One iteration of the while body of WebcamStream.update: the body
runs only while running holds; it reads the stream, discards the success
flag, and overwrites the frame slot under the lock with the second tuple
component, which is None on a failed capture. -/
def updateIter (capture : Option Frame) (s : WebcamStream) : WebcamStream :=
  if s.running then { s with frame := capture } else s

/-- Result of WebcamStream.read: a raw frame copy or encoded bytes. -/
inductive ReadVal where
  | raw (f : Frame)
  | encoded (bs : List Nat)
deriving DecidableEq

/-- WebcamStream.read, parameterised by the external cv2.imencode
collaborator.  A stored None frame raises AttributeError at the call
frame.copy(); otherwise the copy is returned raw, or JPEG compressed by
the collaborator and then base64 encoded. -/
def read (imenc : Frame → List Nat) (s : WebcamStream) (encode : Bool) :
    Except PyErr ReadVal :=
  match s.frame with
  | none => Except.error PyErr.attributeError
  | some f =>
      if encode then Except.ok (ReadVal.encoded (b64encode (imenc f)))
      else Except.ok (ReadVal.raw f)

/-- WebcamStream.stop: sets running to false, then touches self.thread,
which raises AttributeError when no thread was ever created; otherwise
the thread is joined when alive, so it is no longer alive on return. -/
def stop (s : WebcamStream) : Except PyErr WebcamStream :=
  match ({ s with running := false } : WebcamStream).thread with
  | none => Except.error PyErr.attributeError
  | some _ => Except.ok { s with running := false, thread := some false }

end WebcamStream

namespace RealTimeScreenAnalyzer

/-- One iteration of the try block of _capture_frames in src/main.py: a
successful screenshot is appended to the bounded deque, which drops its
oldest entries beyond maxFrames; a raising screenshot is caught by the
except branch and leaves the buffer untouched; the loop keeps running
either way. -/
def captureIter (maxFrames : Nat) (shot : Option Frame) (buf : List Frame) :
    List Frame :=
  match shot with
  | none => buf
  | some f =>
      let b := buf ++ [f]
      if maxFrames < b.length then b.drop (b.length - maxFrames) else b

end RealTimeScreenAnalyzer

/-- Errors raised by ScreenRecorder.extract_frame_at_minute. -/
inductive RecErr where
  | fileNotFoundError
  | valueError
  | zeroDivisionError
deriving DecidableEq

/-- Metadata and contents of an opened video file: the FPS property, the
frame count property, and the frame delivered by cap.read() after
cap.set(CAP_PROP_POS_FRAMES, t), none when that read fails. -/
structure VideoInfo where
  fps : ℚ
  totalFrames : Int
  frameAt : Int → Option Frame

/-- Python int() on a rational value: truncation toward zero. -/
def pyInt (q : ℚ) : Int :=
  if 0 ≤ q then Int.floor q else -Int.floor (-q)

namespace ScreenRecorder

/-- The two local statements of the source computing target_second and
target_frame, inlined: int(((minute - 1) * 60 + 30) * fps). -/
def targetFrame (minute : Int) (fps : ℚ) : Int :=
  pyInt ((((minute - 1) * 60 + 30 : Int) : ℚ) * fps)

/-- ScreenRecorder.extract_frame_at_minute for a caller supplied output
file name.  fileExists models os.path.exists, opened models the capture
handle, none when cap.isOpened() is false.  The statement computing
duration_seconds divides total_frames by fps and raises
ZeroDivisionError when fps is zero; past it, the target frame
int(((minute - 1) * 60 + 30) * fps) is rejected when at or beyond
total_frames, a failing cap.read() is rejected, and a successful read
writes the screenshot and returns its path together with its pixels. -/
def extract_frame_at_minute (outputDir : String) (fileExists : Bool)
    (opened : Option VideoInfo) (minute : Int) (outputFilename : String) :
    Except RecErr (String × Frame) :=
  if fileExists = false then Except.error RecErr.fileNotFoundError
  else
    match opened with
    | none => Except.error RecErr.valueError
    | some vi =>
        if vi.fps = 0 then Except.error RecErr.zeroDivisionError
        else
          if vi.totalFrames ≤ targetFrame minute vi.fps then
            Except.error RecErr.valueError
          else
            match vi.frameAt (targetFrame minute vi.fps) with
            | none => Except.error RecErr.valueError
            | some fr => Except.ok (outputDir ++ "/" ++ outputFilename, fr)

/-- True exactly on the raising outcomes of a call. -/
def isErr {α : Type} : Except RecErr α → Bool
  | Except.error _ => true
  | Except.ok _ => false

end ScreenRecorder

/-- Thread identities of the interleaved WebcamStream model: the single
capture loop writer and one identity per read call. -/
inductive Tid where
  | writer
  | reader (k : Nat)
deriving DecidableEq

/-- Program counter of the capture loop thread running
WebcamStream.update: at the while test, holding the result of a fresh
stream.read() before lock.acquire() (none when that read failed, since
the success flag is discarded and the None payload is kept), inside the
critical section about to store it, past the store before
lock.release(), or exited. -/
inductive WPhase where
  | check
  | captured (c : Option Frame)
  | holding (c : Option Frame)
  | wrote
  | exited
deriving DecidableEq

/-- Program counter of one read call: not yet at lock.acquire(), inside
the critical section having copied i words into acc, returned with a
completed copy, or terminated by the AttributeError that None.copy()
raises when the slot holds the result of a failed capture. -/
inductive RPhase where
  | idle
  | copying (i : Nat) (acc : Frame)
  | finished (f : Frame)
  | raised
deriving DecidableEq

/-- Program counter of the caller of stop: before the call, after the
assignment running = False and before the join returns, or returned. -/
inductive SPhase where
  | idle
  | joining
  | returned
deriving DecidableEq

/-- Interleaved state of one started WebcamStream: the shared frame
slot (none when the last stored capture failed, the None the source
stores without checking the success flag), the mutex owner, the running
flag, and the program counters of the writer, of every read call and of
the stop caller.  hist is ghost instrumentation: the real frames that
were ever completely installed in the slot, newest first, the
construction frame included; a stored None adds nothing to it. -/
structure Sys where
  slot : Option Frame
  hist : List Frame
  lock : Option Tid
  running : Bool
  wphase : WPhase
  readers : Nat → RPhase
  stopper : SPhase

/-- System state right after construction with initial frame f0 and a
first call to start: loop launched at its while test, lock free, no
read call begun, stop not yet called. -/
def Sys.init (f0 : Frame) : Sys :=
  { slot := some f0, hist := [f0], lock := none, running := true,
    wphase := WPhase.check, readers := fun _ => RPhase.idle,
    stopper := SPhase.idle }

/-- Ghost history update at an install: only a real frame is recorded,
a stored None leaves the history unchanged. -/
def histUpd : Option Frame → List Frame → List Frame
  | some f, h => f :: h
  | none, h => h

/-- Atomic interleaved steps of the system.  Lock acquisition needs the
lock free; steps inside a critical section carry no lock test because
the source code does not retest a lock it already holds.  The store by
the writer is one reference assignment of whatever stream.read()
returned, None included; the copy by a reader rereads the shared slot
one word at a time, so it is torn exactly when the slot changes under
it, and it raises AttributeError at once when the slot holds None, in
which case the exception propagates out of read() without releasing the
lock, since the source has no try or finally around the copy. -/
inductive Step : Sys → Sys → Prop where
  | wCapture (s : Sys) (c : Option Frame) :
      s.wphase = WPhase.check → s.running = true →
      Step s { s with wphase := WPhase.captured c }
  | wExit (s : Sys) :
      s.wphase = WPhase.check → s.running = false →
      Step s { s with wphase := WPhase.exited }
  | wAcquire (s : Sys) (c : Option Frame) :
      s.wphase = WPhase.captured c → s.lock = none →
      Step s { s with lock := some Tid.writer, wphase := WPhase.holding c }
  | wSwap (s : Sys) (c : Option Frame) :
      s.wphase = WPhase.holding c →
      Step s { s with slot := c, hist := histUpd c s.hist,
                      wphase := WPhase.wrote }
  | wRelease (s : Sys) :
      s.wphase = WPhase.wrote →
      Step s { s with lock := none, wphase := WPhase.check }
  | rAcquire (s : Sys) (k : Nat) :
      s.readers k = RPhase.idle → s.lock = none →
      Step s { s with lock := some (Tid.reader k),
                      readers := Function.update s.readers k (RPhase.copying 0 []) }
  | rCopy (s : Sys) (k : Nat) (i : Nat) (acc : Frame) (g : Frame) :
      s.readers k = RPhase.copying i acc → s.slot = some g → i < g.length →
      Step s { s with readers := Function.update s.readers k
                        (RPhase.copying (i + 1) (acc ++ [g.getD i 0])) }
  | rFinish (s : Sys) (k : Nat) (i : Nat) (acc : Frame) (g : Frame) :
      s.readers k = RPhase.copying i acc → s.slot = some g → i = g.length →
      Step s { s with lock := none,
                      readers := Function.update s.readers k (RPhase.finished acc) }
  | rRaise (s : Sys) (k : Nat) (i : Nat) (acc : Frame) :
      s.readers k = RPhase.copying i acc → s.slot = none →
      Step s { s with readers := Function.update s.readers k RPhase.raised }
  | sFlag (s : Sys) :
      s.stopper = SPhase.idle →
      Step s { s with running := false, stopper := SPhase.joining }
  | sJoin (s : Sys) :
      s.stopper = SPhase.joining → s.wphase = WPhase.exited →
      Step s { s with stopper := SPhase.returned }

/-- Finitely many interleaved steps. -/
abbrev Steps : Sys → Sys → Prop := Relation.ReflTransGen Step

/-- Reachability invariant of the system: whenever the slot holds a
real frame it is a fully installed one; a mid copy reader owns the lock
and has copied exactly a prefix of the slot frame; completed reads
returned fully installed frames; the writer owns the lock throughout
its critical section; once stop has set the flag the loop can only wind
down, and once stop returned the loop has exited. -/
structure INV (s : Sys) : Prop where
  slot_hist : ∀ g, s.slot = some g → g ∈ s.hist
  copying_lock : ∀ k i acc, s.readers k = RPhase.copying i acc →
    s.lock = some (Tid.reader k)
  copying_acc : ∀ k i acc, s.readers k = RPhase.copying i acc →
    ∀ g, s.slot = some g → acc = g.take i ∧ i ≤ g.length
  finished_hist : ∀ k f, s.readers k = RPhase.finished f → f ∈ s.hist
  holding_lock : ∀ c, s.wphase = WPhase.holding c → s.lock = some Tid.writer
  wrote_lock : s.wphase = WPhase.wrote → s.lock = some Tid.writer
  joining_run : s.stopper = SPhase.joining → s.running = false
  returned_inv : s.stopper = SPhase.returned →
    s.running = false ∧ s.wphase = WPhase.exited

/-- Concrete trace state: fresh system over the one word frame [7]. -/
def wSys0 : Sys := Sys.init [7]

/-- Concrete trace state: read call 0 acquired the lock. -/
def wSys1 : Sys :=
  { wSys0 with lock := some (Tid.reader 0),
               readers := Function.update wSys0.readers 0 (RPhase.copying 0 []) }

/-- Concrete trace state: read call 0 copied the single word. -/
def wSys2 : Sys :=
  { wSys1 with readers := Function.update wSys1.readers 0 (RPhase.copying 1 [7]) }

/-- Concrete trace state: read call 0 released the lock and returned. -/
def wSys3 : Sys :=
  { wSys2 with lock := none,
               readers := Function.update wSys2.readers 0 (RPhase.finished [7]) }

/-- Concrete trace state: fresh system over the one word frame [5]. -/
def tSys0 : Sys := Sys.init [5]

/-- Concrete trace state: stop has set running to false. -/
def tSys1 : Sys := { tSys0 with running := false, stopper := SPhase.joining }

/-- Concrete trace state: the loop observed the flag and exited. -/
def tSys2 : Sys := { tSys1 with wphase := WPhase.exited }

/-- Concrete trace state: the join returned, stop has returned. -/
def tSys3 : Sys := { tSys2 with stopper := SPhase.returned }

/-- Counterexample trace state: fresh system over the frame [5]. -/
def uSys0 : Sys := Sys.init [5]

/-- Counterexample trace state: the capture of this loop iteration
failed, stream.read() returned the pair (False, None), the discarded
flag leaves the loop holding None. -/
def uSys1 : Sys := { uSys0 with wphase := WPhase.captured none }

/-- Counterexample trace state: the loop acquired the lock. -/
def uSys2 : Sys :=
  { uSys1 with lock := some Tid.writer, wphase := WPhase.holding none }

/-- Counterexample trace state: the loop stored None in the slot. -/
def uSys3 : Sys := { uSys2 with slot := none, wphase := WPhase.wrote }

/-- Counterexample trace state: the loop released the lock. -/
def uSys4 : Sys := { uSys3 with lock := none, wphase := WPhase.check }

/-- Counterexample trace state: stop set running to false. -/
def uSys5 : Sys := { uSys4 with running := false, stopper := SPhase.joining }

/-- Counterexample trace state: the loop observed the flag and exited. -/
def uSys6 : Sys := { uSys5 with wphase := WPhase.exited }

/-- Counterexample trace state: the join returned, so stop has
returned, with None as the last stored value. -/
def uSys7 : Sys := { uSys6 with stopper := SPhase.returned }

/-- Counterexample trace state: a read call issued after stop acquired
the lock. -/
def uSys8 : Sys :=
  { uSys7 with lock := some (Tid.reader 0),
               readers := Function.update uSys7.readers 0 (RPhase.copying 0 []) }

/-- Counterexample trace state: the read call hit None.copy() and
raised AttributeError, yielding no frame. -/
def uSys9 : Sys :=
  { uSys8 with readers := Function.update uSys8.readers 0 RPhase.raised }

/-- The inverse base64 alphabet inverts the alphabet on sextets. -/
theorem tblInv_tbl : ∀ n : Nat, n < 64 → tblInv (tbl n) = n := by decide

/-- No alphabet code equals the padding code 61. -/
theorem tbl_ne_pad : ∀ n : Nat, n < 64 → tbl n ≠ 61 := by decide

/-- base64.b64decode inverts base64.b64encode on byte lists. -/
theorem b64_roundtrip : ∀ bs : List Nat, (∀ b ∈ bs, b < 256) →
    b64decode (b64encode bs) = bs
  | [], _ => rfl
  | [b0], h => by
      have hb0 : b0 < 256 := h b0 (by simp)
      show b64decode [tbl (b0 / 4), tbl (b0 % 4 * 16), 61, 61] = [b0]
      rw [b64decode, if_pos rfl]
      rw [tblInv_tbl (b0 / 4) (by omega), tblInv_tbl (b0 % 4 * 16) (by omega)]
      have e : b0 / 4 * 4 + b0 % 4 * 16 / 16 = b0 := by omega
      rw [e]
  | [b0, b1], h => by
      have hb0 : b0 < 256 := h b0 (by simp)
      have hb1 : b1 < 256 := h b1 (by simp)
      show b64decode [tbl (b0 / 4), tbl (b0 % 4 * 16 + b1 / 16),
        tbl (b1 % 16 * 4), 61] = [b0, b1]
      rw [b64decode, if_neg (tbl_ne_pad (b1 % 16 * 4) (by omega)), if_pos rfl]
      rw [tblInv_tbl (b0 / 4) (by omega),
        tblInv_tbl (b0 % 4 * 16 + b1 / 16) (by omega),
        tblInv_tbl (b1 % 16 * 4) (by omega)]
      have e0 : b0 / 4 * 4 + (b0 % 4 * 16 + b1 / 16) / 16 = b0 := by omega
      have e1 : (b0 % 4 * 16 + b1 / 16) % 16 * 16 + b1 % 16 * 4 / 4 = b1 := by omega
      rw [e0, e1]
  | b0 :: b1 :: b2 :: rest, h => by
      have hb0 : b0 < 256 := h b0 (by simp)
      have hb1 : b1 < 256 := h b1 (by simp)
      have hb2 : b2 < 256 := h b2 (by simp)
      have ih := b64_roundtrip rest (fun b hb => h b (by simp [hb]))
      show b64decode (tbl (b0 / 4) :: tbl (b0 % 4 * 16 + b1 / 16) ::
        tbl (b1 % 16 * 4 + b2 / 64) :: tbl (b2 % 64) :: b64encode rest) =
        b0 :: b1 :: b2 :: rest
      rw [b64decode, if_neg (tbl_ne_pad (b1 % 16 * 4 + b2 / 64) (by omega)),
        if_neg (tbl_ne_pad (b2 % 64) (by omega))]
      rw [tblInv_tbl (b0 / 4) (by omega),
        tblInv_tbl (b0 % 4 * 16 + b1 / 16) (by omega),
        tblInv_tbl (b1 % 16 * 4 + b2 / 64) (by omega),
        tblInv_tbl (b2 % 64) (by omega)]
      have e0 : b0 / 4 * 4 + (b0 % 4 * 16 + b1 / 16) / 16 = b0 := by omega
      have e1 : (b0 % 4 * 16 + b1 / 16) % 16 * 16 + (b1 % 16 * 4 + b2 / 64) / 4 = b1 := by
        omega
      have e2 : (b1 % 16 * 4 + b2 / 64) % 4 * 64 + b2 % 64 = b2 := by omega
      rw [e0, e1, e2, ih]

/-- Extending a prefix copy by the next word of the source list. -/
theorem take_getD {l : List Nat} {i : Nat} (h : i < l.length) :
    l.take (i + 1) = l.take i ++ [l.getD i 0] := by
  rw [List.getD_eq_getElem l 0 h]
  rw [← List.take_concat_get l i h, List.concat_eq_append]

/-- The invariant holds in the initial system state. -/
theorem inv_init (f0 : Frame) : INV (Sys.init f0) := by
  refine ⟨?_, ?_, ?_, ?_, ?_, ?_, ?_, ?_⟩
  · intro g hg
    simp [Sys.init] at hg
    simp [Sys.init, hg]
  · intro k i acc hk; simp [Sys.init] at hk
  · intro k i acc hk; simp [Sys.init] at hk
  · intro k f hk; simp [Sys.init] at hk
  · intro f hf; simp [Sys.init] at hf
  · intro hw; simp [Sys.init] at hw
  · intro hj; simp [Sys.init] at hj
  · intro hr; simp [Sys.init] at hr

/-- Every atomic step preserves the invariant. -/
theorem inv_step {s t : Sys} (hs : Step s t) (h : INV s) : INV t := by
  cases hs with
  | wCapture c hc hr =>
      refine ⟨h.slot_hist, h.copying_lock, h.copying_acc, h.finished_hist,
        ?_, ?_, h.joining_run, ?_⟩
      · intro g hg; simp at hg
      · intro hw; simp at hw
      · intro hret; rw [(h.returned_inv hret).2] at hc; simp at hc
  | wExit hc hr =>
      refine ⟨h.slot_hist, h.copying_lock, h.copying_acc, h.finished_hist,
        ?_, ?_, h.joining_run, ?_⟩
      · intro g hg; simp at hg
      · intro hw; simp at hw
      · intro hret; exact ⟨(h.returned_inv hret).1, rfl⟩
  | wAcquire c hcap hlock =>
      refine ⟨h.slot_hist, ?_, h.copying_acc, h.finished_hist, ?_, ?_,
        h.joining_run, ?_⟩
      · intro k i acc hk
        have hx := h.copying_lock k i acc hk
        rw [hlock] at hx; simp at hx
      · intro g hg; rfl
      · intro hw; rfl
      · intro hret; rw [(h.returned_inv hret).2] at hcap; simp at hcap
  | wSwap c hh =>
      refine ⟨?_, ?_, ?_, ?_, ?_, ?_, h.joining_run, ?_⟩
      · intro g hg
        dsimp only at hg ⊢
        cases c with
        | none => simp at hg
        | some f =>
            injection hg with e
            subst e
            exact List.mem_cons_self f _
      · intro k i acc hk
        have hx := h.copying_lock k i acc hk
        rw [h.holding_lock c hh] at hx; simp at hx
      · intro k i acc hk
        have hx := h.copying_lock k i acc hk
        rw [h.holding_lock c hh] at hx; simp at hx
      · intro k g hk
        dsimp only
        cases c with
        | none => exact h.finished_hist k g hk
        | some f => exact List.mem_cons_of_mem f (h.finished_hist k g hk)
      · intro g hg; simp at hg
      · intro _; exact h.holding_lock c hh
      · intro hret; rw [(h.returned_inv hret).2] at hh; simp at hh
  | wRelease hw =>
      refine ⟨h.slot_hist, ?_, ?_, h.finished_hist, ?_, ?_, h.joining_run, ?_⟩
      · intro k i acc hk
        have hx := h.copying_lock k i acc hk
        rw [h.wrote_lock hw] at hx; simp at hx
      · intro k i acc hk
        have hx := h.copying_lock k i acc hk
        rw [h.wrote_lock hw] at hx; simp at hx
      · intro g hg; simp at hg
      · intro hw2; simp at hw2
      · intro hret; rw [(h.returned_inv hret).2] at hw; simp at hw
  | rAcquire k hidle hlock =>
      refine ⟨h.slot_hist, ?_, ?_, ?_, ?_, ?_, h.joining_run, h.returned_inv⟩
      · intro k2 i acc hk2
        dsimp only at hk2 ⊢
        by_cases hkk : k2 = k
        · subst hkk; rfl
        · rw [Function.update_noteq hkk] at hk2
          have hx := h.copying_lock _ _ _ hk2
          rw [hlock] at hx; simp at hx
      · intro k2 i acc hk2
        dsimp only at hk2 ⊢
        by_cases hkk : k2 = k
        · subst hkk
          rw [Function.update_same] at hk2
          injection hk2 with hi hacc
          intro g hg
          rw [← hi, ← hacc]
          exact ⟨rfl, Nat.zero_le _⟩
        · rw [Function.update_noteq hkk] at hk2
          have hx := h.copying_lock _ _ _ hk2
          rw [hlock] at hx; simp at hx
      · intro k2 g hk2
        dsimp only at hk2 ⊢
        by_cases hkk : k2 = k
        · subst hkk; rw [Function.update_same] at hk2; simp at hk2
        · rw [Function.update_noteq hkk] at hk2
          exact h.finished_hist _ _ hk2
      · intro g hg
        have hx := h.holding_lock g hg
        rw [hlock] at hx; simp at hx
      · intro hw
        have hx := h.wrote_lock hw
        rw [hlock] at hx; simp at hx
  | rCopy k i acc g hk hg hi =>
      refine ⟨h.slot_hist, ?_, ?_, ?_, h.holding_lock, h.wrote_lock,
        h.joining_run, h.returned_inv⟩
      · intro k2 j acc2 hk2
        dsimp only at hk2 ⊢
        by_cases hkk : k2 = k
        · subst hkk; exact h.copying_lock _ _ _ hk
        · rw [Function.update_noteq hkk] at hk2
          exact h.copying_lock _ _ _ hk2
      · intro k2 j acc2 hk2
        dsimp only at hk2 ⊢
        by_cases hkk : k2 = k
        · subst hkk
          rw [Function.update_same] at hk2
          injection hk2 with hj hacc2
          intro g2 hg2
          rw [hg] at hg2
          injection hg2 with e
          subst e
          rw [← hj, ← hacc2, (h.copying_acc _ _ _ hk g hg).1]
          exact ⟨(take_getD hi).symm, hi⟩
        · rw [Function.update_noteq hkk] at hk2
          exact h.copying_acc _ _ _ hk2
      · intro k2 g2 hk2
        dsimp only at hk2 ⊢
        by_cases hkk : k2 = k
        · subst hkk; rw [Function.update_same] at hk2; simp at hk2
        · rw [Function.update_noteq hkk] at hk2
          exact h.finished_hist _ _ hk2
  | rFinish k i acc g hk hg hi =>
      refine ⟨h.slot_hist, ?_, ?_, ?_, ?_, ?_, h.joining_run, h.returned_inv⟩
      · intro k2 j acc2 hk2
        dsimp only at hk2 ⊢
        by_cases hkk : k2 = k
        · subst hkk; rw [Function.update_same] at hk2; simp at hk2
        · rw [Function.update_noteq hkk] at hk2
          have e1 := h.copying_lock _ _ _ hk
          have e2 := h.copying_lock _ _ _ hk2
          rw [e1] at e2; simp at e2
          exact absurd e2.symm hkk
      · intro k2 j acc2 hk2
        dsimp only at hk2 ⊢
        by_cases hkk : k2 = k
        · subst hkk; rw [Function.update_same] at hk2; simp at hk2
        · rw [Function.update_noteq hkk] at hk2
          exact h.copying_acc _ _ _ hk2
      · intro k2 g2 hk2
        dsimp only at hk2 ⊢
        by_cases hkk : k2 = k
        · subst hkk
          rw [Function.update_same] at hk2
          injection hk2 with hacc
          rw [← hacc, (h.copying_acc _ _ _ hk g hg).1, hi, List.take_length]
          exact h.slot_hist g hg
        · rw [Function.update_noteq hkk] at hk2
          exact h.finished_hist _ _ hk2
      · intro g2 hg2
        have e1 := h.copying_lock _ _ _ hk
        have e2 := h.holding_lock g2 hg2
        rw [e1] at e2; simp at e2
      · intro hw
        have e1 := h.copying_lock _ _ _ hk
        have e2 := h.wrote_lock hw
        rw [e1] at e2; simp at e2
  | rRaise k i acc hk hnone =>
      refine ⟨h.slot_hist, ?_, ?_, ?_, h.holding_lock, h.wrote_lock,
        h.joining_run, h.returned_inv⟩
      · intro k2 j acc2 hk2
        dsimp only at hk2 ⊢
        by_cases hkk : k2 = k
        · subst hkk; rw [Function.update_same] at hk2; simp at hk2
        · rw [Function.update_noteq hkk] at hk2
          exact h.copying_lock _ _ _ hk2
      · intro k2 j acc2 hk2
        dsimp only at hk2 ⊢
        by_cases hkk : k2 = k
        · subst hkk; rw [Function.update_same] at hk2; simp at hk2
        · rw [Function.update_noteq hkk] at hk2
          exact h.copying_acc _ _ _ hk2
      · intro k2 g hk2
        dsimp only at hk2 ⊢
        by_cases hkk : k2 = k
        · subst hkk; rw [Function.update_same] at hk2; simp at hk2
        · rw [Function.update_noteq hkk] at hk2
          exact h.finished_hist _ _ hk2
  | sFlag hst =>
      refine ⟨h.slot_hist, h.copying_lock, h.copying_acc, h.finished_hist,
        h.holding_lock, h.wrote_lock, ?_, ?_⟩
      · intro _; rfl
      · intro hret; simp at hret
  | sJoin hst hex =>
      refine ⟨h.slot_hist, h.copying_lock, h.copying_acc, h.finished_hist,
        h.holding_lock, h.wrote_lock, ?_, ?_⟩
      · intro hj; simp at hj
      · intro _; exact ⟨h.joining_run hst, hex⟩

/-- The invariant holds in every reachable system state. -/
theorem inv_reach (f0 : Frame) (s : Sys) (h : Steps (Sys.init f0) s) : INV s := by
  induction h with
  | refl => exact inv_init f0
  | tail hsb hstep ih => exact inv_step hstep ih

/-- C1: across every interleaving of the capture loop with concurrent
read calls, each completed read holds a complete copy of some single
fully installed frame, an element of the ghost write history, and never
a torn mix of two installs: both the writer install and the reader copy
sit inside critical sections of the one mutex. -/
theorem C1_reads_return_fully_written_frames (f0 : Frame) (s : Sys)
    (h : Steps (Sys.init f0) s) (k : Nat) (f : Frame)
    (hf : s.readers k = RPhase.finished f) : f ∈ s.hist :=
  (inv_reach f0 s h).finished_hist k f hf

/-- C1 witness: a concrete three step trace in which read call 0
completes and indeed returns the fully written frame [7]. -/
theorem C1_witness : wSys3.readers 0 = RPhase.finished [7] ∧ [7] ∈ wSys3.hist := by
  have st1 : Step wSys0 wSys1 := Step.rAcquire wSys0 0 rfl rfl
  have st2 : Step wSys1 wSys2 := Step.rCopy wSys1 0 0 [] [7] rfl rfl (by decide)
  have st3 : Step wSys2 wSys3 := Step.rFinish wSys2 0 1 [7] [7] rfl rfl rfl
  have tr : Steps (Sys.init [7]) wSys3 :=
    Relation.ReflTransGen.tail (Relation.ReflTransGen.tail
      (Relation.ReflTransGen.tail Relation.ReflTransGen.refl st1) st2) st3
  exact ⟨rfl, C1_reads_return_fully_written_frames [7] wSys3 tr 0 [7] rfl⟩

/-- C2 counterexample: a concrete reachable execution falsifying the
claim as stated: the last capture before the loop exits fails and None
is stored, stop then returns, and a read issued after stop raises
AttributeError at None.copy() instead of yielding any frame, so the
last frame is not readable after stop. -/
theorem C2_counterexample :
    Steps (Sys.init [5]) uSys7 ∧
    uSys7.stopper = SPhase.returned ∧ uSys7.slot = none ∧
    Steps uSys7 uSys9 ∧ uSys9.readers 0 = RPhase.raised ∧
    uSys9.stopper = SPhase.returned := by
  have s1 : Step uSys0 uSys1 := Step.wCapture uSys0 none rfl rfl
  have s2 : Step uSys1 uSys2 := Step.wAcquire uSys1 none rfl rfl
  have s3 : Step uSys2 uSys3 := Step.wSwap uSys2 none rfl
  have s4 : Step uSys3 uSys4 := Step.wRelease uSys3 rfl
  have s5 : Step uSys4 uSys5 := Step.sFlag uSys4 rfl
  have s6 : Step uSys5 uSys6 := Step.wExit uSys5 rfl rfl
  have s7 : Step uSys6 uSys7 := Step.sJoin uSys6 rfl rfl
  have s8 : Step uSys7 uSys8 := Step.rAcquire uSys7 0 rfl rfl
  have s9 : Step uSys8 uSys9 := Step.rRaise uSys8 0 0 [] rfl rfl
  have tr1 : Steps (Sys.init [5]) uSys7 :=
    Relation.ReflTransGen.tail (Relation.ReflTransGen.tail
      (Relation.ReflTransGen.tail (Relation.ReflTransGen.tail
        (Relation.ReflTransGen.tail (Relation.ReflTransGen.tail
          (Relation.ReflTransGen.tail Relation.ReflTransGen.refl s1) s2) s3)
        s4) s5) s6) s7
  have tr2 : Steps uSys7 uSys9 :=
    Relation.ReflTransGen.tail
      (Relation.ReflTransGen.tail Relation.ReflTransGen.refl s8) s9
  exact ⟨tr1, rfl, rfl, tr2, rfl, rfl⟩

/-- C2 amended: once stop has returned, preceded by start (the modelled
system is the started buffer), no step ever changes the frame slot
again and the loop stays exited; a read call issued after stop that
completes returns exactly the frame stored when stop returned, and a
read call that raises after stop does so exactly because the last
stored capture before the loop exited had failed and left None in the
slot. -/
theorem C2_after_stop_frozen_amended (f0 : Frame) (s s2 : Sys)
    (hre : Steps (Sys.init f0) s) (hstop : s.stopper = SPhase.returned)
    (hss : Steps s s2) :
    s2.slot = s.slot ∧ s2.stopper = SPhase.returned ∧
    s2.wphase = WPhase.exited ∧
    (∀ k f, s2.readers k = RPhase.finished f →
      s.readers k = RPhase.finished f ∨ s.slot = some f) ∧
    (∀ k, s2.readers k = RPhase.raised →
      s.readers k = RPhase.raised ∨ s.slot = none) := by
  induction hss with
  | refl =>
      exact ⟨rfl, hstop, ((inv_reach f0 s hre).returned_inv hstop).2,
        fun k f hf => Or.inl hf, fun k hf => Or.inl hf⟩
  | tail hsb hstep ih =>
      obtain ⟨hslot, hst, hwp, hrd, hrz⟩ := ih
      have hinvb := inv_reach f0 _ (Relation.ReflTransGen.trans hre hsb)
      cases hstep with
      | wCapture c hc hr => rw [hwp] at hc; simp at hc
      | wExit hc hr => rw [hwp] at hc; simp at hc
      | wAcquire c hcap hlock => rw [hwp] at hcap; simp at hcap
      | wSwap c hh => rw [hwp] at hh; simp at hh
      | wRelease hw => rw [hwp] at hw; simp at hw
      | rAcquire k hidle hlock =>
          refine ⟨hslot, hst, hwp, ?_, ?_⟩
          · intro k2 f hf
            dsimp only at hf
            by_cases hkk : k2 = k
            · subst hkk; rw [Function.update_same] at hf; simp at hf
            · rw [Function.update_noteq hkk] at hf
              exact hrd _ _ hf
          · intro k2 hf
            dsimp only at hf
            by_cases hkk : k2 = k
            · subst hkk; rw [Function.update_same] at hf; simp at hf
            · rw [Function.update_noteq hkk] at hf
              exact hrz _ hf
      | rCopy k i acc g hk hg hi =>
          refine ⟨hslot, hst, hwp, ?_, ?_⟩
          · intro k2 f hf
            dsimp only at hf
            by_cases hkk : k2 = k
            · subst hkk; rw [Function.update_same] at hf; simp at hf
            · rw [Function.update_noteq hkk] at hf
              exact hrd _ _ hf
          · intro k2 hf
            dsimp only at hf
            by_cases hkk : k2 = k
            · subst hkk; rw [Function.update_same] at hf; simp at hf
            · rw [Function.update_noteq hkk] at hf
              exact hrz _ hf
      | rFinish k i acc g hk hg hi =>
          refine ⟨hslot, hst, hwp, ?_, ?_⟩
          · intro k2 f hf
            dsimp only at hf
            by_cases hkk : k2 = k
            · subst hkk
              rw [Function.update_same] at hf
              injection hf with hacc
              refine Or.inr ?_
              rw [← hslot, hg, ← hacc, (hinvb.copying_acc _ _ _ hk g hg).1,
                hi, List.take_length]
            · rw [Function.update_noteq hkk] at hf
              exact hrd _ _ hf
          · intro k2 hf
            dsimp only at hf
            by_cases hkk : k2 = k
            · subst hkk; rw [Function.update_same] at hf; simp at hf
            · rw [Function.update_noteq hkk] at hf
              exact hrz _ hf
      | rRaise k i acc hk hnone =>
          refine ⟨hslot, hst, hwp, ?_, ?_⟩
          · intro k2 f hf
            dsimp only at hf
            by_cases hkk : k2 = k
            · subst hkk; rw [Function.update_same] at hf; simp at hf
            · rw [Function.update_noteq hkk] at hf
              exact hrd _ _ hf
          · intro k2 hf
            dsimp only at hf
            by_cases hkk : k2 = k
            · subst hkk
              refine Or.inr ?_
              rw [← hslot]
              exact hnone
            · rw [Function.update_noteq hkk] at hf
              exact hrz _ hf
      | sFlag hst2 => rw [hst] at hst2; simp at hst2
      | sJoin hst2 hex => rw [hst] at hst2; simp at hst2

/-- C2 witness for the amended statement: a concrete trace in which
stop sets the flag, the loop observes it and exits, the join returns,
and the conclusion holds at the stopped state itself. -/
theorem C2_witness :
    tSys3.stopper = SPhase.returned ∧
    (tSys3.slot = tSys3.slot ∧ tSys3.stopper = SPhase.returned ∧
      tSys3.wphase = WPhase.exited ∧
      (∀ k f, tSys3.readers k = RPhase.finished f →
        tSys3.readers k = RPhase.finished f ∨ tSys3.slot = some f) ∧
      (∀ k, tSys3.readers k = RPhase.raised →
        tSys3.readers k = RPhase.raised ∨ tSys3.slot = none)) := by
  have st1 : Step tSys0 tSys1 := Step.sFlag tSys0 rfl
  have st2 : Step tSys1 tSys2 := Step.wExit tSys1 rfl rfl
  have st3 : Step tSys2 tSys3 := Step.sJoin tSys2 rfl rfl
  have tr : Steps (Sys.init [5]) tSys3 :=
    Relation.ReflTransGen.tail (Relation.ReflTransGen.tail
      (Relation.ReflTransGen.tail Relation.ReflTransGen.refl st1) st2) st3
  exact ⟨rfl, C2_after_stop_frozen_amended [5] tSys3 tSys3 tr rfl
    Relation.ReflTransGen.refl⟩

/-- C3 counterexample: on a running buffer holding the stale frame
[1, 2], one capture loop iteration whose underlying read fails keeps
the loop running but stores None, so read raises AttributeError instead
of returning the stale frame. -/
theorem C3_counterexample :
    (WebcamStream.updateIter none
      { frame := some [1, 2], running := true, thread := some true,
        spawned := 1 }).running = true ∧
    (WebcamStream.updateIter none
      { frame := some [1, 2], running := true, thread := some true,
        spawned := 1 }).frame ≠ some [1, 2] ∧
    WebcamStream.read (fun bs => bs)
      (WebcamStream.updateIter none
        { frame := some [1, 2], running := true, thread := some true,
          spawned := 1 }) false = Except.error PyErr.attributeError := by
  refine ⟨rfl, by decide, rfl⟩

/-- C3 amended: a capture failure never terminates the loop, but in
WebcamStream.update the discarded success flag means the stored frame
becomes the failed result None, so a read after a failed iteration
raises AttributeError rather than returning the stale frame, until a
later successful capture restores it; the screen analyzer loop of
src/main.py does leave its buffer untouched on a failed capture. -/
theorem C3_failed_capture_amended (imenc : Frame → List Nat)
    (s : WebcamStream) (cap : Option Frame) (m : Nat) (buf : List Frame)
    (h : s.running = true) :
    (WebcamStream.updateIter cap s).running = true ∧
    (WebcamStream.updateIter cap s).frame = cap ∧
    (cap = none →
      WebcamStream.read imenc (WebcamStream.updateIter cap s) false =
        Except.error PyErr.attributeError) ∧
    (∀ f, cap = some f →
      WebcamStream.read imenc (WebcamStream.updateIter cap s) false =
        Except.ok (WebcamStream.ReadVal.raw f)) ∧
    RealTimeScreenAnalyzer.captureIter m none buf = buf := by
  refine ⟨?_, ?_, ?_, ?_, rfl⟩
  · simp [WebcamStream.updateIter, h]
  · simp [WebcamStream.updateIter, h]
  · intro hcap; subst hcap
    simp [WebcamStream.updateIter, WebcamStream.read, h]
  · intro f hcap; subst hcap
    simp [WebcamStream.updateIter, WebcamStream.read, h]

/-- C3 witness for the amended statement, at a running buffer and a
successful capture. -/
theorem C3_witness :
    ({ frame := some [1, 2], running := true, thread := some true,
        spawned := 1 } : WebcamStream).running = true ∧
    (WebcamStream.updateIter (some [3, 4])
      { frame := some [1, 2], running := true, thread := some true,
        spawned := 1 }).frame = some [3, 4] :=
  ⟨rfl, (C3_failed_capture_amended (fun bs => bs) _ (some [3, 4]) 0 [] rfl).2.1⟩

/-- C4: start is idempotent: on a running buffer it returns the buffer
unchanged and spawns nothing, on a stopped buffer it marks it running,
spawns one loop thread and returns the buffer, and two consecutive
calls from a stopped buffer spawn exactly one loop. -/
theorem C4_start_idempotent (s : WebcamStream) :
    WebcamStream.start (WebcamStream.start s) = WebcamStream.start s ∧
    (s.running = true → WebcamStream.start s = s) ∧
    (s.running = false →
      (WebcamStream.start s).running = true ∧
      (WebcamStream.start s).thread = some true ∧
      (WebcamStream.start s).spawned = s.spawned + 1 ∧
      (WebcamStream.start (WebcamStream.start s)).spawned = s.spawned + 1) := by
  cases hr : s.running with
  | true => simp [WebcamStream.start, hr]
  | false => simp [WebcamStream.start, hr]

/-- C4 witness at a freshly constructed buffer. -/
theorem C4_witness :
    (WebcamStream.initState (some [3])).running = false ∧
    (WebcamStream.start (WebcamStream.initState (some [3]))).spawned = 1 ∧
    (WebcamStream.start (WebcamStream.start
      (WebcamStream.initState (some [3])))).spawned = 1 := by
  have h := (C4_start_idempotent (WebcamStream.initState (some [3]))).2.2 rfl
  exact ⟨rfl, h.2.2.1, h.2.2.2⟩

/-- C5: a read before any capture loop iteration returns exactly the
frame captured synchronously at construction and nothing undefined: on
a successful initial capture the stored frame itself, and on a failed
one no value at all but an AttributeError. -/
theorem C5_read_initial_frame (imenc : Frame → List Nat) (cap : Option Frame) :
    WebcamStream.read imenc (WebcamStream.initState cap) false =
      match cap with
      | some f0 => Except.ok (WebcamStream.ReadVal.raw f0)
      | none => Except.error PyErr.attributeError := by
  cases cap <;> rfl

/-- C6 counterexample: constructing over an unopenable capture source
completes without raising, the claimed synchronous failure never
happens, and the object silently holds None as its frame. -/
theorem C6_counterexample :
    WebcamStream.init none = Except.ok (WebcamStream.initState none) ∧
    (WebcamStream.initState none).frame = none := ⟨rfl, rfl⟩

/-- C6 amended: construction never raises on an unopenable source,
because VideoCapture(index=0) returns an unopened object and the failed
first read has its success flag discarded; the stored frame is None and
the failure surfaces only later, as an AttributeError from read. -/
theorem C6_open_failure_amended (imenc : Frame → List Nat) (e : Bool) :
    WebcamStream.init none = Except.ok (WebcamStream.initState none) ∧
    (WebcamStream.initState none).frame = none ∧
    WebcamStream.read imenc (WebcamStream.initState none) e =
      Except.error PyErr.attributeError :=
  ⟨rfl, rfl, rfl⟩

/-- C7 counterexample: stop on a freshly constructed, never started
buffer raises AttributeError, because self.thread was never created. -/
theorem C7_counterexample :
    WebcamStream.stop (WebcamStream.initState (some [1])) =
      Except.error PyErr.attributeError := rfl

/-- C7 amended: stop on a non running buffer is a raise free no op only
when the buffer has been started before, so that the thread attribute
exists and is no longer alive; then stop returns at once and leaves the
state unchanged. -/
theorem C7_stop_not_running_amended (s : WebcamStream)
    (h1 : s.running = false) (h2 : s.thread = some false) :
    WebcamStream.stop s = Except.ok s := by
  cases s with
  | mk fr run th sp =>
      dsimp only at h1 h2
      subst h1
      subst h2
      rfl

/-- C7 witness at a started and already stopped buffer. -/
theorem C7_witness :
    ({ frame := some [1], running := false, thread := some false,
        spawned := 1 } : WebcamStream).running = false ∧
    WebcamStream.stop
      { frame := some [1], running := false, thread := some false,
        spawned := 1 } =
      Except.ok { frame := some [1], running := false,
                  thread := some false, spawned := 1 } :=
  ⟨rfl, C7_stop_not_running_amended _ rfl rfl⟩

/-- C8: read with encoding returns exactly the base64 encoding of the
compressed current frame, and decoding through the transport decoder
and the image decoder of the collaborator recovers a pixel equivalent
frame, given that the collaborator decoder inverts its encoder on this
frame and produces bytes. -/
theorem C8_encode_roundtrip (imenc imdec : List Nat → List Nat)
    (s : WebcamStream) (f : Frame) (hs : s.frame = some f)
    (hinv : imdec (imenc f) = f) (hbytes : ∀ b ∈ imenc f, b < 256) :
    WebcamStream.read imenc s true =
      Except.ok (WebcamStream.ReadVal.encoded (b64encode (imenc f))) ∧
    imdec (b64decode (b64encode (imenc f))) = f := by
  constructor
  · simp [WebcamStream.read, hs]
  · rw [b64_roundtrip (imenc f) hbytes, hinv]

/-- C8 witness at a concrete two pixel frame and a concrete byte level
collaborator. -/
theorem C8_witness :
    (WebcamStream.initState (some [10, 200])).frame = some [10, 200] ∧
    (∀ b ∈ ([10, 200] : List Nat), b < 256) ∧
    (WebcamStream.read (fun _ => [10, 200])
        (WebcamStream.initState (some [10, 200])) true =
      Except.ok (WebcamStream.ReadVal.encoded (b64encode [10, 200])) ∧
    (fun _ => ([10, 200] : List Nat)) (b64decode (b64encode [10, 200])) =
      [10, 200]) := by
  refine ⟨rfl, by decide, ?_⟩
  exact C8_encode_roundtrip (fun _ => [10, 200]) (fun _ => [10, 200])
    (WebcamStream.initState (some [10, 200])) [10, 200] rfl rfl (by decide)

/-- C9: the buffer is restartable: from any stopped state, start then
stop leaves a non running buffer with a dead thread, a further start
marks it running again and spawns a second loop thread, and a capture
of the new loop is then observed by read. -/
theorem C9_restartable (imenc : Frame → List Nat) (s : WebcamStream)
    (h : s.running = false) :
    ∃ s2, WebcamStream.stop (WebcamStream.start s) = Except.ok s2 ∧
      s2.running = false ∧ s2.thread = some false ∧
      (WebcamStream.start s2).running = true ∧
      (WebcamStream.start s2).thread = some true ∧
      (WebcamStream.start s2).spawned = s.spawned + 2 ∧
      ∀ f, WebcamStream.read imenc
        (WebcamStream.updateIter (some f) (WebcamStream.start s2)) false =
          Except.ok (WebcamStream.ReadVal.raw f) := by
  refine ⟨{ s with running := false, thread := some false, spawned := s.spawned + 1 },
    ?_, rfl, rfl, ?_, ?_, ?_, ?_⟩
  · simp [WebcamStream.start, h, WebcamStream.stop]
  · simp [WebcamStream.start]
  · simp [WebcamStream.start]
  · simp [WebcamStream.start]
  · intro f
    simp [WebcamStream.start, WebcamStream.updateIter, WebcamStream.read]

/-- C9 witness at a freshly constructed buffer. -/
theorem C9_witness :
    (WebcamStream.initState (some [4])).running = false ∧
    (∃ s2, WebcamStream.stop (WebcamStream.start
        (WebcamStream.initState (some [4]))) = Except.ok s2 ∧
      s2.running = false ∧ s2.thread = some false ∧
      (WebcamStream.start s2).running = true ∧
      (WebcamStream.start s2).thread = some true ∧
      (WebcamStream.start s2).spawned =
        (WebcamStream.initState (some [4])).spawned + 2 ∧
      ∀ f, WebcamStream.read (fun bs => bs)
        (WebcamStream.updateIter (some f) (WebcamStream.start s2)) false =
          Except.ok (WebcamStream.ReadVal.raw f)) :=
  ⟨rfl, C9_restartable (fun bs => bs) _ rfl⟩

/-- C10: for an existing, openable video with positive frame rate, the
extraction raises exactly when the target frame index
int(((minute - 1) * 60 + 30) * fps) is at or beyond the frame count or
the read at it fails; otherwise it returns the screenshot path and the
frame at that index, the middle of the requested minute. -/
theorem C10_extract_characterisation (vi : VideoInfo) (minute : Int)
    (outDir name : String) (hfps : 0 < vi.fps) :
    (ScreenRecorder.isErr (ScreenRecorder.extract_frame_at_minute outDir true
        (some vi) minute name) = true ↔
      (vi.totalFrames ≤ ScreenRecorder.targetFrame minute vi.fps ∨
        vi.frameAt (ScreenRecorder.targetFrame minute vi.fps) = none)) ∧
    (∀ fr, vi.frameAt (ScreenRecorder.targetFrame minute vi.fps) = some fr →
      ¬ vi.totalFrames ≤ ScreenRecorder.targetFrame minute vi.fps →
      ScreenRecorder.extract_frame_at_minute outDir true (some vi) minute name =
        Except.ok (outDir ++ "/" ++ name, fr)) := by
  have h0 : vi.fps ≠ 0 := ne_of_gt hfps
  constructor
  · unfold ScreenRecorder.extract_frame_at_minute
    rw [if_neg (by simp)]
    dsimp only
    rw [if_neg h0]
    by_cases hle : vi.totalFrames ≤ ScreenRecorder.targetFrame minute vi.fps
    · rw [if_pos hle]
      simp [ScreenRecorder.isErr, hle]
    · rw [if_neg hle]
      cases hfr : vi.frameAt (ScreenRecorder.targetFrame minute vi.fps) with
      | none => simp [ScreenRecorder.isErr, hle, hfr]
      | some fr => simp [ScreenRecorder.isErr, hle, hfr]
  · intro fr hfr hnle
    unfold ScreenRecorder.extract_frame_at_minute
    rw [if_neg (by simp)]
    dsimp only
    rw [if_neg h0, if_neg hnle, hfr]

/-- C10 witness: a 6000 frame video at 20 fps; minute 1 targets frame
600, inside the video, and extraction succeeds with the frame read
there. -/
theorem C10_witness :
    (0 : ℚ) < 20 ∧
    ScreenRecorder.extract_frame_at_minute "recordings" true
      (some { fps := 20, totalFrames := 6000, frameAt := fun _ => some [9] })
      1 "shot.png" =
      Except.ok ("recordings" ++ "/" ++ "shot.png", [9]) := by
  have htf : ScreenRecorder.targetFrame 1 20 = 600 := by
    norm_num [ScreenRecorder.targetFrame, pyInt]
  refine ⟨by norm_num, ?_⟩
  refine (C10_extract_characterisation
    { fps := 20, totalFrames := 6000, frameAt := fun _ => some [9] }
    1 "recordings" "shot.png" (by norm_num)).2 [9] rfl ?_
  rw [htf]
  decide
